import Mathlib

set_option maxRecDepth 100000

/-
  Verification of the capacity-probing engine of disksize.c
  (rparkins999/DiskUtilities).

  The device is modelled as a total function `Nat → Nat` from byte addresses
  to byte values.  A device's behaviour on a write is a parameter of type
  `WriteSem`: a faithful device (`perfectWrite`) stores exactly the bytes
  written; a counterfeit device (`aliasWrite m`) additionally maps every
  write at an address `a ≥ m` onto `a % m` (address-line truncation, the
  failure mode the program is designed to detect).

  The transport layer (open / lseek / read / write / fsync / close in
  `checkedread` and `checkedwrite`, disksize.c lines 71-172) is modelled by
  a transfer oracle `tr : Nat → Int`: `tr k` is the byte count the k-th
  read(2)/write(2) system call of the run transfers.  Every transfer request
  made by `readbacktest` is of `blocksize` bytes; the C code exits with
  status -1 whenever the transferred count is negative or differs from the
  requested size (lines 102-111 and 154-163), which is exactly the test
  `tr k ≠ blocksize` below.  A probe with `tr = fun _ => blocksize` is a
  probe that completes without any fatal transport error.
-/

/-- MAXBLOCKSIZE, disksize.c line 21. -/
def MAXBLOCKSIZE : Nat := 4096

/-- The bytes a successful `checkedread` at address `a` of `n` bytes
    delivers from device state `s`. -/
def readBuf (s : Nat → Nat) (a n : Nat) : List Nat :=
  (List.range n).map fun k => s (a + k)

/-- A local C array of which only the first `data.length` cells were
    assigned; the cells beyond keep their indeterminate initial stack
    content `junk`. -/
def fill (junk : Nat → Nat) (data : List Nat) : Nat → Nat :=
  fun n => if n < data.length then data.getD n 0 else junk n

/-- Number of indices `k < n` at which two arrays differ (the counting
    loops at disksize.c lines 216-226 and 231-241). -/
def countDiff (f g : Nat → Nat) (n : Nat) : Nat :=
  ((List.range n).filter fun k => f k != g k).length

/-- Number of positions at which two buffers differ. -/
def listDiff (xs ys : List Nat) : Nat :=
  ((xs.zip ys).filter fun p => p.1 != p.2).length

/-- Device write semantics: given the current contents, the target address
    and the bytes written, produce the new contents. -/
def WriteSem : Type := (Nat → Nat) → Nat → List Nat → (Nat → Nat)

/-- A device that durably stores exactly the bytes written, at exactly the
    addresses written. -/
def perfectWrite : WriteSem := fun s a data x =>
  if a ≤ x ∧ x < a + data.length then data.getD (x - a) 0 else s x

/-- A counterfeit device that, besides storing the data at `a`, aliases
    every write at an address `a ≥ m` onto address `a % m`. -/
def aliasWrite (m : Nat) : WriteSem := fun s a data =>
  if m ≤ a then perfectWrite (perfectWrite s a data) (a % m) data
  else perfectWrite s a data

/-- One transport-level device transaction, as issued by `checkedread`
    (recorded with the address and requested size) or `checkedwrite`
    (recorded with the address and buffer written). -/
inductive Op where
  | read : Nat → Nat → Op
  | write : Nat → List Nat → Op
deriving DecidableEq

/-- The addresses of the write transactions in a trace, in order. -/
def writeAddrs (l : List Op) : List Nat :=
  l.filterMap fun op => match op with
    | .write a _ => some a
    | _ => none

/-- The test pattern generated at disksize.c lines 207-209:
    byte `n` is `(i + n) % 256`. -/
def pattern (i bs : Nat) : List Nat :=
  (List.range bs).map fun n => (i + n) % 256

/-- Result of one probe transaction (`readbacktest`):
    `ok` is false when the process called `exit` (with status `exitCode`),
    `state` is the device content when the routine ends, `ops` the ordered
    trace of device transactions issued, `counter` the global transport
    operation counter after the probe, `mismatch` and `corruption` the two
    counts of disksize.c lines 214-215 (0 if the probe aborted before
    computing them). -/
structure ProbeOut where
  ok : Bool
  exitCode : Int
  state : Nat → Nat
  ops : List Op
  counter : Nat
  mismatch : Nat
  corruption : Nat

/-- Shallow embedding of `readbacktest` (disksize.c lines 197-249).

    `wr` is the device's write behaviour, `tr` the transport transfer
    oracle (see the file header), `jw` and `jr` the indeterminate initial
    contents of the stack arrays `writedata` and `readbackdata`, `bs` the
    global `blocksize`, `s` the device content on entry; `address`,
    `modulo` (the aliasing modulus) and `i` (the sequence number) are the C
    parameters, and `k0` the transport operation counter on entry.

    Line-by-line: `address -= blocksize` (202); `old = address % modulo`
    (203); read `old` into `prevdata` (204); read `address` into
    `originalreaddata` (205); build `writedata` (207-209); write it to
    `address` (210); read `address` back (212); count `mismatch` over
    `MAXBLOCKSIZE` positions (214-226); write `originalreaddata` back to
    `address` (228); re-read `old` (230); count `corruption` over
    `blocksize` positions (231-241); if corruption was found, write
    `prevdata` back to `address` (242-245); exit(-1) if `mismatch` or
    `corruption` is non-zero (246-248).  A short transfer exits(-1) on the
    spot; the device effect of a short write is not modelled because the
    process terminates there and no claim observes the state after a
    transport abort. -/
def readbacktest (wr : WriteSem) (tr : Nat → Int) (jw jr : Nat → Nat)
    (bs : Nat) (s : Nat → Nat) (address modulo i k0 : Nat) : ProbeOut :=
  let A := address - bs
  let old := A % modulo
  if tr k0 ≠ (bs : Int) then
    ⟨false, -1, s, [.read old bs], k0 + 1, 0, 0⟩
  else
    let prevdata := readBuf s old bs
    if tr (k0 + 1) ≠ (bs : Int) then
      ⟨false, -1, s, [.read old bs, .read A bs], k0 + 2, 0, 0⟩
    else
      let originalreaddata := readBuf s A bs
      let writedata := fill jw (pattern i bs)
      if tr (k0 + 2) ≠ (bs : Int) then
        ⟨false, -1, s, [.read old bs, .read A bs, .write A (pattern i bs)],
          k0 + 3, 0, 0⟩
      else
        let s1 := wr s A (pattern i bs)
        if tr (k0 + 3) ≠ (bs : Int) then
          ⟨false, -1, s1,
            [.read old bs, .read A bs, .write A (pattern i bs), .read A bs],
            k0 + 4, 0, 0⟩
        else
          let readbackdata := fill jr (readBuf s1 A bs)
          let mismatch := countDiff readbackdata writedata MAXBLOCKSIZE
          if tr (k0 + 4) ≠ (bs : Int) then
            ⟨false, -1, s1,
              [.read old bs, .read A bs, .write A (pattern i bs), .read A bs,
               .write A originalreaddata], k0 + 5, mismatch, 0⟩
          else
            let s2 := wr s1 A originalreaddata
            if tr (k0 + 5) ≠ (bs : Int) then
              ⟨false, -1, s2,
                [.read old bs, .read A bs, .write A (pattern i bs),
                 .read A bs, .write A originalreaddata, .read old bs],
                k0 + 6, mismatch, 0⟩
            else
              let corruption := listDiff (readBuf s2 old bs) prevdata
              if corruption ≠ 0 then
                if tr (k0 + 6) ≠ (bs : Int) then
                  ⟨false, -1, s2,
                    [.read old bs, .read A bs, .write A (pattern i bs),
                     .read A bs, .write A originalreaddata, .read old bs,
                     .write A prevdata], k0 + 7, mismatch, corruption⟩
                else
                  ⟨false, -1, wr s2 A prevdata,
                    [.read old bs, .read A bs, .write A (pattern i bs),
                     .read A bs, .write A originalreaddata, .read old bs,
                     .write A prevdata], k0 + 7, mismatch, corruption⟩
              else if mismatch ≠ 0 then
                ⟨false, -1, s2,
                  [.read old bs, .read A bs, .write A (pattern i bs),
                   .read A bs, .write A originalreaddata, .read old bs],
                  k0 + 6, mismatch, corruption⟩
              else
                ⟨true, 0, s2,
                  [.read old bs, .read A bs, .write A (pattern i bs),
                   .read A bs, .write A originalreaddata, .read old bs],
                  k0 + 6, mismatch, corruption⟩

/-
  The capacity probing scheduler, disksize.c lines 436-452.

  `offset` and `totalsize` are a signed 64-bit `off_t` and an
  `unsigned long long`; the comparison `offset <= totalsize` and the
  subtraction `totalsize - offset` are performed in unsigned 64-bit
  arithmetic after the usual conversions, hence `wsub` below.  The loops
  are embedded with a fuel parameter to keep the definitions structurally
  recursive and executable; `schedFuel = 70` iterations can never be
  exhausted for any `totalsize` representable by the C program
  (phase 1 doubles a positive offset starting at 2^20, phase 2 at least
  halves a gap below 2^64, so at most 64 iterations can ever run), and the
  scheduler theorems carry the hypothesis `totalsize < 2^62` under which
  the C arithmetic itself is exact.
-/

/-- Unsigned 64-bit `t - o`, the arithmetic of `totalsize - offset` at
    disksize.c line 447. -/
def wsub (t o : Nat) : Nat := (t + 2 ^ 64 - o) % 2 ^ 64

/-- Iteration fuel for the scheduler loops; see the comment above. -/
def schedFuel : Nat := 70

/-- Phase 1 loop, disksize.c lines 436-441: while `offset ≤ totalsize`,
    record a probe `(offset, offset / 2, i)` and double `offset`.
    Produces the list of `(address, modulus, sequence)` probe invocations. -/
def phase1Aux : Nat → Nat → Nat → Nat → List (Nat × Nat × Nat)
  | 0, _, _, _ => []
  | fuel + 1, t, o, i =>
    if o ≤ t then (o, o / 2, i) :: phase1Aux fuel t (2 * o) (i + 1) else []

/-- The values of `offset` and `i` when the phase 1 loop exits. -/
def phase1End : Nat → Nat → Nat → Nat → Nat × Nat
  | 0, _, o, i => (o, i)
  | fuel + 1, t, o, i =>
    if o ≤ t then phase1End fuel t (2 * o) (i + 1) else (o, i)

/-- Phase 2 loop, disksize.c lines 447-451: while `totalsize - offset`
    (in unsigned 64-bit arithmetic) exceeds 1 MiB, increment `i`, move
    `offset` to the midpoint `(offset + totalsize) / 2` and record a probe
    `(offset, modulo, i)`. -/
def phase2Aux : Nat → Nat → Nat → Nat → Nat → List (Nat × Nat × Nat)
  | 0, _, _, _, _ => []
  | fuel + 1, t, m, o, i =>
    if 2 ^ 20 < wsub t o then
      ((o + t) / 2, m, i + 1) :: phase2Aux fuel t m ((o + t) / 2) (i + 1)
    else []

/-- The phase 1 probe invocations of a run with total size `t`
    (`offset` starts at 1 MiB, disksize.c line 436). -/
def phase1Probes (t : Nat) : List (Nat × Nat × Nat) :=
  phase1Aux schedFuel t (2 ^ 20) 0

/-- The fixed phase 2 modulus and initial offset: after the phase 1 loop,
    `offset = offset / 2; modulo = offset` (disksize.c lines 445-446). -/
def phase2Anchor (t : Nat) : Nat := (phase1End schedFuel t (2 ^ 20) 0).1 / 2

/-- The phase 2 probe invocations, disksize.c lines 442-452: entered when
    `offset != totalsize` after phase 1. -/
def phase2Probes (t : Nat) : List (Nat × Nat × Nat) :=
  if (phase1End schedFuel t (2 ^ 20) 0).1 ≠ t then
    phase2Aux schedFuel t (phase2Anchor t) (phase2Anchor t)
      (phase1End schedFuel t (2 ^ 20) 0).2
  else []

/-- All probe invocations `(address, modulus, sequence)` the scheduler
    issues, in order. -/
def schedule (t : Nat) : List (Nat × Nat × Nat) := phase1Probes t ++ phase2Probes t

/-- Result of running the scheduler: whether it completed without `exit`,
    the exit status if it did call `exit`, the number of probes initiated,
    and the final transport operation counter. -/
structure RunOut where
  ok : Bool
  exitCode : Int
  started : Nat
  counter : Nat

/-- Runs the probe invocations in order, threading the device state and
    the transport counter; stops at the first probe that exits. -/
def runAux (wr : WriteSem) (tr : Nat → Int) (jw jr : Nat → Nat) (bs : Nat) :
    List (Nat × Nat × Nat) → (Nat → Nat) → Nat → RunOut
  | [], _, k => ⟨true, 0, 0, k⟩
  | p :: rest, s, k =>
    let out := readbacktest wr tr jw jr bs s p.1 p.2.1 p.2.2 k
    if out.ok then
      let r := runAux wr tr jw jr bs rest out.state out.counter
      ⟨r.ok, r.exitCode, r.started + 1, r.counter⟩
    else ⟨false, out.exitCode, 1, out.counter⟩

/-- A whole size-test run on a device of claimed size `t` and initial
    content `s`. -/
def runSchedule (wr : WriteSem) (tr : Nat → Int) (jw jr : Nat → Nat)
    (bs t : Nat) (s : Nat → Nat) : RunOut :=
  runAux wr tr jw jr bs (schedule t) s 0

/-- Device content used by the aliasing counterexamples: zero below the
    probe block at 1 MiB − 512, one from there up. -/
def exState : Nat → Nat := fun x => if x < 1048064 then 0 else 1

/-- The all-zero junk / initial-content function. -/
def zf : Nat → Nat := fun _ => 0

/-- The probe transaction of the first phase 1 probe (address 1 MiB,
    modulus 512 KiB, sequence 0, blocksize 512) executed with a fault-free
    transport on an aliasing device that folds addresses ≥ 512 KiB onto
    their value mod 512 KiB. -/
def exProbe : ProbeOut :=
  readbacktest (aliasWrite 524288) (fun _ => (512 : Int)) zf zf
    512 exState 1048576 524288 0 0

/-- Device content used by the second aliasing counterexample: zero below
    the probe block at 2 MiB − 512, one from there up. -/
def exState2 : Nat → Nat := fun x => if x < 2096640 then 0 else 1

/-- The probe transaction of the second phase 1 probe (address 2 MiB,
    modulus 1 MiB, sequence 1, blocksize 512) with fault-free transport on
    a device aliasing addresses ≥ 1 MiB onto their value mod 1 MiB. -/
def exProbe2 : ProbeOut :=
  readbacktest (aliasWrite 1048576) (fun _ => (512 : Int)) zf zf
    512 exState2 2097152 1048576 1 0

/-- The junk function that is 1 everywhere. -/
def onef : Nat → Nat := fun _ => 1


/-- Closed form of the phase 1 loop: starting from offset `o`, the `j`-th
    probe is at `o * 2^j` with modulus `o * 2^j / 2` and sequence `i + j`,
    and exists exactly while `o * 2^j ≤ t`.  The fuel hypothesis says the
    fuel outlasts the doublings. -/
lemma phase1Aux_get? (fuel t o i j : Nat) (hfuel : t < o * 2 ^ fuel) :
    (phase1Aux fuel t o i).get? j =
      if o * 2 ^ j ≤ t then some (o * 2 ^ j, o * 2 ^ j / 2, i + j) else none := by
  induction fuel generalizing o i j with
  | zero =>
    rw [pow_zero, mul_one] at hfuel
    have hno : ¬ o * 2 ^ j ≤ t := by
      push_neg
      calc t < o := hfuel
        _ ≤ o * 2 ^ j := Nat.le_mul_of_pos_right _ (pow_pos (by norm_num) j)
    simp [phase1Aux, hno]
  | succ fuel ih =>
    simp only [phase1Aux]
    by_cases h : o ≤ t
    · rw [if_pos h]
      cases j with
      | zero => simp [pow_zero, h]
      | succ j =>
        have hf2 : t < 2 * o * 2 ^ fuel := by
          calc t < o * 2 ^ (fuel + 1) := hfuel
            _ = 2 * o * 2 ^ fuel := by ring
        rw [List.get?_cons_succ, ih (2 * o) (i + 1) j hf2]
        have e1 : 2 * o * 2 ^ j = o * 2 ^ (j + 1) := by ring
        have e2 : i + 1 + j = i + (j + 1) := by omega
        rw [e1, e2]
    · rw [if_neg h]
      push_neg at h
      have hno : ¬ o * 2 ^ j ≤ t := by
        push_neg
        calc t < o := h
          _ ≤ o * 2 ^ j := Nat.le_mul_of_pos_right _ (pow_pos (by norm_num) j)
      simp [hno]

/-- The phase 1 exit state: offset has been doubled once per probe, and
    `i` counts the probes. -/
lemma phase1End_eq (fuel t o i : Nat) :
    phase1End fuel t o i =
      (o * 2 ^ (phase1Aux fuel t o i).length,
       i + (phase1Aux fuel t o i).length) := by
  induction fuel generalizing o i with
  | zero => simp [phase1End, phase1Aux]
  | succ fuel ih =>
    simp only [phase1End, phase1Aux]
    by_cases h : o ≤ t
    · rw [if_pos h, if_pos h, ih (2 * o) (i + 1), List.length_cons]
      simp only [Prod.mk.injEq]
      exact ⟨by ring, by omega⟩
    · simp [if_neg h]

/-- Helper form of the closed phase 1 schedule at the program's actual
    starting offset of 1 MiB. -/
lemma p1_closed (t : Nat) (ht : t < 2 ^ 62) (j : Nat) :
    (phase1Probes t).get? j =
      if 2 ^ 20 * 2 ^ j ≤ t then some (2 ^ 20 * 2 ^ j, 2 ^ 19 * 2 ^ j, j) else none := by
  have hfuel : t < 2 ^ 20 * 2 ^ schedFuel := by
    calc t < 2 ^ 62 := ht
      _ ≤ 2 ^ 20 * 2 ^ schedFuel := by norm_num [schedFuel]
  rw [phase1Probes, phase1Aux_get? schedFuel t (2 ^ 20) 0 j hfuel]
  have e1 : 2 ^ 20 * 2 ^ j / 2 = 2 ^ 19 * 2 ^ j := by
    rw [show (2 : Nat) ^ 20 = 2 * 2 ^ 19 by norm_num, mul_assoc,
      Nat.mul_div_cancel_left _ (by norm_num : (0 : Nat) < 2)]
  rw [e1]
  simp

/-- C6: in phase 1 the `j`-th probe (0-based) is at address
    `2^20 * 2^j` — so the first probe is at exactly 1 MiB and each probe
    address doubles the previous one — its aliasing modulus is
    `2^19 * 2^j`, half its address, and the probe exists exactly while the
    address is at most `totalsize`. -/
theorem C6_phase1_schedule (t : Nat) (ht : t < 2 ^ 62) (j : Nat) :
    (phase1Probes t).get? j =
      if 2 ^ 20 * 2 ^ j ≤ t then some (2 ^ 20 * 2 ^ j, 2 ^ 19 * 2 ^ j, j) else none :=
  p1_closed t ht j

/-- Witness: with `totalsize = 2^21` the second phase 1 probe is at
    address 2 MiB with modulus 1 MiB and sequence number 1. -/
theorem C6_phase1_schedule_inst :
    (phase1Probes (2 ^ 21)).get? 1 =
      if 2 ^ 20 * 2 ^ 1 ≤ 2 ^ 21 then some (2 ^ 20 * 2 ^ 1, 2 ^ 19 * 2 ^ 1, 1) else none :=
  C6_phase1_schedule (2 ^ 21) (by norm_num) 1

/-- When `offset ≤ totalsize < 2^64`, the unsigned subtraction is exact. -/
lemma wsub_eq (t o : Nat) (ho : o ≤ t) (ht : t < 2 ^ 64) : wsub t o = t - o := by
  unfold wsub
  omega

/-- Head of the phase 2 loop output. -/
lemma phase2Aux_get?_zero (fuel t m o i : Nat) (hf : 0 < fuel) :
    (phase2Aux fuel t m o i).get? 0 =
      if 2 ^ 20 < wsub t o then some ((o + t) / 2, m, i + 1) else none := by
  cases fuel with
  | zero => omega
  | succ fuel =>
    simp only [phase2Aux]
    split_ifs <;> rfl

/-- Every phase 2 probe carries the fixed modulus `m`. -/
lemma phase2Aux_mem_modulo (fuel t m o i : Nat) :
    ∀ e ∈ phase2Aux fuel t m o i, e.2.1 = m := by
  induction fuel generalizing o i with
  | zero => simp [phase2Aux]
  | succ fuel ih =>
    simp only [phase2Aux]
    split_ifs with h
    · intro e he
      rcases List.mem_cons.mp he with rfl | hmem
      · rfl
      · exact ih _ _ e hmem
    · simp

/-- Consecutive phase 2 probes: the next address is the midpoint of the
    previous address and `t`, and the remaining gap strictly shrinks. -/
lemma phase2Aux_chain (fuel t m : Nat) (ht : t < 2 ^ 64) :
    ∀ o i, o ≤ t → ∀ j e e2, (phase2Aux fuel t m o i).get? j = some e →
      (phase2Aux fuel t m o i).get? (j + 1) = some e2 →
      e2.1 = (e.1 + t) / 2 ∧ t - e2.1 < t - e.1 := by
  induction fuel with
  | zero =>
    intro o i ho j e e2 h1 h2
    simp [phase2Aux] at h1
  | succ fuel ih =>
    intro o i ho j e e2 h1 h2
    simp only [phase2Aux] at h1 h2
    by_cases hg : 2 ^ 20 < wsub t o
    · rw [if_pos hg] at h1 h2
      have ho2 : (o + t) / 2 ≤ t := by omega
      cases j with
      | zero =>
        rw [List.get?_cons_zero] at h1
        rw [List.get?_cons_succ] at h2
        cases fuel with
        | zero => simp [phase2Aux] at h2
        | succ fuel =>
          rw [phase2Aux_get?_zero _ t m _ _ (Nat.succ_pos _)] at h2
          by_cases hg2 : 2 ^ 20 < wsub t ((o + t) / 2)
          · rw [if_pos hg2] at h2
            have he := Option.some.inj h1
            have he2 := Option.some.inj h2
            subst he he2
            rw [wsub_eq t ((o + t) / 2) ho2 ht] at hg2
            refine ⟨rfl, ?_⟩
            simp only
            omega
          · rw [if_neg hg2] at h2
            exact absurd h2 (by simp)
      | succ j =>
        rw [List.get?_cons_succ] at h1 h2
        exact ih ((o + t) / 2) (i + 1) ho2 j e e2 h1 h2
    · rw [if_neg hg] at h1
      simp at h1

/-- When the phase 2 loop stops, the remaining gap is at most 1 MiB.
    The hypothesis `t - o ≤ 2^20 * 2^fuel` certifies the fuel outlasts the
    halvings. -/
lemma phase2Aux_stop (fuel t m : Nat) (ht : t < 2 ^ 64) :
    ∀ o i, o ≤ t → t - o ≤ 2 ^ 20 * 2 ^ fuel →
      t - (((phase2Aux fuel t m o i).map (fun e => e.1)).getLastD o) ≤ 2 ^ 20 := by
  induction fuel with
  | zero =>
    intro o i ho hs
    simp only [phase2Aux, List.map_nil, List.getLastD_nil]
    simpa using hs
  | succ fuel ih =>
    intro o i ho hs
    simp only [phase2Aux]
    split_ifs with hg
    · simp only [List.map_cons, List.getLastD_cons]
      have ho2 : (o + t) / 2 ≤ t := by omega
      apply ih ((o + t) / 2) (i + 1) ho2
      have hp : 2 ^ 20 * 2 ^ (fuel + 1) = 2 * (2 ^ 20 * 2 ^ fuel) := by ring
      omega
    · simp only [List.map_nil, List.getLastD_nil]
      rw [wsub_eq t o ho ht] at hg
      omega

/-- The phase 2 loop makes at most `k` probes when the initial gap is at
    most `2^20 * 2^k`: each iteration at least halves a gap that must stay
    above 1 MiB for the loop to continue. -/
lemma phase2Aux_length (fuel t m : Nat) (ht : t < 2 ^ 64) :
    ∀ o i k, o ≤ t → t - o ≤ 2 ^ 20 * 2 ^ k →
      (phase2Aux fuel t m o i).length ≤ k := by
  induction fuel with
  | zero =>
    intro o i k ho hk
    simp [phase2Aux]
  | succ fuel ih =>
    intro o i k ho hk
    simp only [phase2Aux]
    split_ifs with hg
    · rw [List.length_cons]
      rw [wsub_eq t o ho ht] at hg
      cases k with
      | zero =>
        rw [pow_zero, mul_one] at hk
        omega
      | succ k =>
        have ho2 : (o + t) / 2 ≤ t := by omega
        have hk2 : t - (o + t) / 2 ≤ 2 ^ 20 * 2 ^ k := by
          have hp : 2 ^ 20 * 2 ^ (k + 1) = 2 * (2 ^ 20 * 2 ^ k) := by ring
          omega
        have := ih ((o + t) / 2) (i + 1) k ho2 hk2
        omega
    · simp

lemma getLast?_eq_get?' {α : Type} (l : List α) : l.getLast? = l.get? (l.length - 1) := by
  induction l with
  | nil => rfl
  | cons a l ih =>
    cases l with
    | nil => rfl
    | cons b tl =>
      rw [List.getLast?_cons_cons, ih]
      simp

lemma p1_length_iff (t : Nat) (ht : t < 2 ^ 62) (j : Nat) :
    2 ^ 20 * 2 ^ j ≤ t ↔ j < (phase1Probes t).length := by
  constructor
  · intro hj
    by_contra hlen
    push_neg at hlen
    have hc := p1_closed t ht j
    rw [if_pos hj, List.get?_eq_none.mpr hlen] at hc
    exact absurd hc (by simp)
  · intro hj
    by_contra hno
    have hc := p1_closed t ht j
    rw [if_neg hno] at hc
    have := List.get?_eq_none.mp hc
    omega

/-- C7: for `2^20 ≤ totalsize < 2^62`, phase 2 uses an aliasing modulus
    fixed at the last phase 1 probe address, every iteration probes the
    midpoint `(offset + totalsize) / 2` of the interval between the
    current lower bound and `totalsize`, the remaining interval
    `totalsize − offset` strictly shrinks on every iteration, the loop
    stops once it is ≤ 1 MiB, and the number of iterations is at most
    `log2(totalsize / 1MiB) + 1`. -/
theorem C7_phase2_bisection (t : Nat) (h1 : 2 ^ 20 ≤ t) (h2 : t < 2 ^ 62) :
    ((phase1Probes t).getLast?).map (fun e => e.1) = some (phase2Anchor t) ∧
    (∀ e ∈ phase2Probes t, e.2.1 = phase2Anchor t) ∧
    (((phase2Probes t).get? 0).map (fun e => e.1) =
      if 2 ^ 20 < t - phase2Anchor t then some ((phase2Anchor t + t) / 2) else none) ∧
    (∀ e, (phase2Probes t).get? 0 = some e → t - e.1 < t - phase2Anchor t) ∧
    (∀ j e e2, (phase2Probes t).get? j = some e →
      (phase2Probes t).get? (j + 1) = some e2 →
      e2.1 = (e.1 + t) / 2 ∧ t - e2.1 < t - e.1) ∧
    (t - (((phase2Probes t).map (fun e => e.1)).getLastD (phase2Anchor t)) ≤ 2 ^ 20) ∧
    ((phase2Probes t).length ≤ Nat.log 2 (t / 2 ^ 20) + 1) := by
  have ht64 : t < 2 ^ 64 := by
    calc t < 2 ^ 62 := h2
      _ ≤ 2 ^ 64 := by norm_num
  have hiff := p1_length_iff t h2
  have hL : 0 < (phase1Probes t).length := (hiff 0).mp (by simpa using h1)
  have hEnd : phase1End schedFuel t (2 ^ 20) 0 =
      (2 ^ 20 * 2 ^ (phase1Probes t).length, (phase1Probes t).length) := by
    rw [phase1End_eq]
    simp [phase1Probes]
  have hAnchor : phase2Anchor t = 2 ^ 19 * 2 ^ (phase1Probes t).length := by
    unfold phase2Anchor
    rw [hEnd]
    show 2 ^ 20 * 2 ^ (phase1Probes t).length / 2 = 2 ^ 19 * 2 ^ (phase1Probes t).length
    rw [show (2 : Nat) ^ 20 = 2 * 2 ^ 19 by norm_num, mul_assoc,
      Nat.mul_div_cancel_left _ (by norm_num : (0 : Nat) < 2)]
  have hAnchor2 : phase2Anchor t = 2 ^ 20 * 2 ^ ((phase1Probes t).length - 1) := by
    obtain ⟨n, hn⟩ : ∃ n, (phase1Probes t).length = n + 1 :=
      ⟨(phase1Probes t).length - 1, by omega⟩
    rw [hAnchor, hn, pow_succ, Nat.add_sub_cancel]
    ring
  have hAle : phase2Anchor t ≤ t := by
    rw [hAnchor2]
    exact (hiff _).mpr (by omega)
  have hNe : (phase1End schedFuel t (2 ^ 20) 0).1 ≠ t := by
    rw [hEnd]
    have hgt : ¬ 2 ^ 20 * 2 ^ (phase1Probes t).length ≤ t := fun hc => by
      have := (hiff _).mp hc
      omega
    simp only
    omega
  have hp2 : phase2Probes t =
      phase2Aux schedFuel t (phase2Anchor t) (phase2Anchor t) (phase1Probes t).length := by
    unfold phase2Probes
    rw [if_pos hNe, hEnd]
  have hfuel : t - phase2Anchor t ≤ 2 ^ 20 * 2 ^ schedFuel := by
    have : t ≤ 2 ^ 20 * 2 ^ schedFuel := by
      calc t ≤ 2 ^ 62 := le_of_lt h2
        _ ≤ 2 ^ 20 * 2 ^ schedFuel := by norm_num [schedFuel]
    omega
  refine ⟨?_, ?_, ?_, ?_, ?_, ?_, ?_⟩
  · rw [getLast?_eq_get?' (phase1Probes t), p1_closed t h2 ((phase1Probes t).length - 1),
      if_pos ((hiff _).mpr (by omega))]
    simp [hAnchor2]
  · rw [hp2]
    exact phase2Aux_mem_modulo _ _ _ _ _
  · rw [hp2, phase2Aux_get?_zero _ _ _ _ _ (by norm_num [schedFuel]),
      wsub_eq t _ hAle ht64]
    split_ifs <;> simp
  · intro e he
    rw [hp2, phase2Aux_get?_zero _ _ _ _ _ (by norm_num [schedFuel]),
      wsub_eq t _ hAle ht64] at he
    split_ifs at he with hg
    have := Option.some.inj he
    subst this
    simp only
    omega
  · rw [hp2]
    exact phase2Aux_chain schedFuel t _ ht64 _ _ hAle
  · rw [hp2]
    exact phase2Aux_stop schedFuel t _ ht64 _ _ hAle hfuel
  · rw [hp2]
    have hdiv : 1 ≤ t / 2 ^ 20 := (Nat.one_le_div_iff (by norm_num)).mpr h1
    have hlt : t / 2 ^ 20 < 2 ^ (Nat.log 2 (t / 2 ^ 20) + 1) :=
      Nat.lt_pow_succ_log_self (by norm_num) _
    apply phase2Aux_length schedFuel t _ ht64 _ _ _ hAle
    have h20 : (2 : Nat) ^ 20 = 1048576 := by norm_num
    rw [h20] at hlt ⊢
    omega

/-- Witness: instantiates the phase 2 bisection theorem at
    `totalsize = 5767168` (5.5 MiB). -/
theorem C7_phase2_bisection_inst :
    ((phase1Probes 5767168).getLast?).map (fun e => e.1) = some (phase2Anchor 5767168) ∧
    (∀ e ∈ phase2Probes 5767168, e.2.1 = phase2Anchor 5767168) ∧
    (((phase2Probes 5767168).get? 0).map (fun e => e.1) =
      if 2 ^ 20 < 5767168 - phase2Anchor 5767168 then
        some ((phase2Anchor 5767168 + 5767168) / 2) else none) ∧
    (∀ e, (phase2Probes 5767168).get? 0 = some e →
      5767168 - e.1 < 5767168 - phase2Anchor 5767168) ∧
    (∀ j e e2, (phase2Probes 5767168).get? j = some e →
      (phase2Probes 5767168).get? (j + 1) = some e2 →
      e2.1 = (e.1 + 5767168) / 2 ∧ 5767168 - e2.1 < 5767168 - e.1) ∧
    (5767168 - (((phase2Probes 5767168).map (fun e => e.1)).getLastD
      (phase2Anchor 5767168)) ≤ 2 ^ 20) ∧
    ((phase2Probes 5767168).length ≤ Nat.log 2 (5767168 / 2 ^ 20) + 1) :=
  C7_phase2_bisection 5767168 (by norm_num) (by norm_num)

/-- C5 fails on the code: with `totalsize = 1000` (any device smaller than
    512 KiB) phase 1 runs zero probes, and in phase 2 the unsigned 64-bit
    subtraction `totalsize - offset` wraps around, so the scheduler
    initiates a probe at address 262644 — below the 1 MiB floor and above
    `totalsize`. -/
theorem C5_small_device_probe_out_of_range :
    (schedule 1000).get? 0 = some (262644, 524288, 1) ∧
    262644 < 2 ^ 20 ∧ 1000 < 262644 := by
  refine ⟨by decide, by norm_num, by norm_num⟩

/-- On a probe whose transport never fails, `readbacktest` reduces to the
    read-write-verify-restore core. -/
lemma readbacktest_ok_eq (wr : WriteSem) (jw jr : Nat → Nat) (bs : Nat)
    (s : Nat → Nat) (address modulo i k0 : Nat) :
    readbacktest wr (fun _ => (bs : Int)) jw jr bs s address modulo i k0 =
      (let A := address - bs
       let old := A % modulo
       let prevdata := readBuf s old bs
       let originalreaddata := readBuf s A bs
       let s1 := wr s A (pattern i bs)
       let mismatch := countDiff (fill jr (readBuf s1 A bs))
         (fill jw (pattern i bs)) MAXBLOCKSIZE
       let s2 := wr s1 A originalreaddata
       let corruption := listDiff (readBuf s2 old bs) prevdata
       if corruption ≠ 0 then
         ⟨false, -1, wr s2 A prevdata,
           [.read old bs, .read A bs, .write A (pattern i bs),
            .read A bs, .write A originalreaddata, .read old bs,
            .write A prevdata], k0 + 7, mismatch, corruption⟩
       else if mismatch ≠ 0 then
         ⟨false, -1, s2,
           [.read old bs, .read A bs, .write A (pattern i bs),
            .read A bs, .write A originalreaddata, .read old bs],
           k0 + 6, mismatch, corruption⟩
       else
         ⟨true, 0, s2,
           [.read old bs, .read A bs, .write A (pattern i bs),
            .read A bs, .write A originalreaddata, .read old bs],
           k0 + 6, mismatch, corruption⟩) := by
  unfold readbacktest
  simp

lemma readBuf_length (s : Nat → Nat) (a n : Nat) : (readBuf s a n).length = n := by
  simp [readBuf]

lemma readBuf_getD (s : Nat → Nat) (a n j : Nat) (h : j < n) :
    (readBuf s a n).getD j 0 = s (a + j) := by
  rw [readBuf, List.getD_eq_getElem?_getD, List.getElem?_map, List.getElem?_range h]
  rfl

lemma pattern_length (i bs : Nat) : (pattern i bs).length = bs := by
  simp [pattern]

lemma pattern_getD (i bs n : Nat) (h : n < bs) :
    (pattern i bs).getD n 0 = (i + n) % 256 := by
  rw [pattern, List.getD_eq_getElem?_getD, List.getElem?_map, List.getElem?_range h]
  rfl

lemma listDiff_self (xs : List Nat) : listDiff xs xs = 0 := by
  induction xs with
  | nil => rfl
  | cons a l ih =>
    unfold listDiff at ih ⊢
    simp only [List.zip_cons_cons, List.filter_cons, bne_self_eq_false]
    exact ih

/-- A faithful device returns to its original contents after the probe's
    two writes at `a`: writing the pattern and then writing back the bytes
    read before. -/
lemma perfectWrite_restore (s : Nat → Nat) (a bs : Nat) (data : List Nat)
    (hlen : data.length = bs) (x : Nat) :
    perfectWrite (perfectWrite s a data) a (readBuf s a bs) x = s x := by
  show (if a ≤ x ∧ x < a + (readBuf s a bs).length then (readBuf s a bs).getD (x - a) 0
       else perfectWrite s a data x) = s x
  rw [readBuf_length]
  by_cases h : a ≤ x ∧ x < a + bs
  · rw [if_pos h, readBuf_getD s a bs (x - a) (by omega)]
    congr 1
    omega
  · rw [if_neg h]
    show (if a ≤ x ∧ x < a + data.length then data.getD (x - a) 0 else s x) = s x
    rw [hlen, if_neg h]

/-- C1, amended: on a device that stores writes faithfully (exactly the
    issued bytes at exactly the targeted addresses), every probe
    transaction that completes without a fatal transport error leaves every
    device address — in particular the probed address — with the content it
    had before the probe. -/
theorem C1_restoration_on_faithful_device (jw jr s : Nat → Nat)
    (bs a m i k0 x : Nat) :
    (readbacktest perfectWrite (fun _ => (bs : Int)) jw jr bs s a m i k0).state x
      = s x := by
  rw [readbacktest_ok_eq]
  have hres : ∀ y,
      perfectWrite (perfectWrite s (a - bs) (pattern i bs)) (a - bs)
        (readBuf s (a - bs) bs) y = s y :=
    fun y => perfectWrite_restore s (a - bs) bs (pattern i bs) (pattern_length i bs) y
  have hbuf :
      readBuf (perfectWrite (perfectWrite s (a - bs) (pattern i bs)) (a - bs)
        (readBuf s (a - bs) bs)) ((a - bs) % m) bs
        = readBuf s ((a - bs) % m) bs := by
    unfold readBuf
    exact List.map_congr_left fun k _ => hres _
  simp only [hbuf, listDiff_self, ne_eq, not_true_eq_false, if_false]
  split_ifs <;> exact hres x

/-- C1 fails as stated: on the aliasing device, the first phase 1 probe
    (address 1 MiB, modulus 512 KiB, blocksize 512) completes with no
    transport error and detects corruption, yet afterwards the probed
    address holds the shadow block's bytes (0), not its own original
    content (1): the corruption-path restore of disksize.c line 244 writes
    the shadow snapshot to `address` instead of the shadow address. -/
theorem C1_restoration_counterexample :
    exProbe.corruption = 512 ∧ exProbe.state 1048064 ≠ exState 1048064 := by
  constructor
  · decide
  · decide

/-- The first read of the probe is at the shadow address and the pattern
    write is at `address - blocksize`, on every device and every
    transport-error-free probe. -/
lemma readbacktest_trace (wr : WriteSem) (jw jr : Nat → Nat) (bs : Nat)
    (s : Nat → Nat) (a m i k0 : Nat) :
    (readbacktest wr (fun _ => (bs : Int)) jw jr bs s a m i k0).ops.get? 0 =
      some (.read ((a - bs) % m) bs) ∧
    (readbacktest wr (fun _ => (bs : Int)) jw jr bs s a m i k0).ops.get? 2 =
      some (.write (a - bs) (pattern i bs)) := by
  simp only [readbacktest_ok_eq]
  split_ifs <;> exact ⟨rfl, rfl⟩

/-- C2 fails as stated: on a faithful device, the first phase 1 probe
    (caller address 1 MiB) writes only at 1048064 = 1 MiB − blocksize;
    no write is issued at the probed address 1048576 itself. -/
theorem C2_write_address_counterexample :
    writeAddrs exProbe2.ops = [2096640, 2096640, 2096640] ∧
    (2096640 : Nat) ≠ 2097152 := by
  constructor
  · decide
  · decide

/-- C2, amended: the pattern is written at byte offset
    `address - blocksize`, and the shadow address read first is
    `(address - blocksize) mod modulus`. -/
theorem C2_write_and_shadow (wr : WriteSem) (jw jr : Nat → Nat) (bs : Nat)
    (s : Nat → Nat) (a m i k0 : Nat) :
    (readbacktest wr (fun _ => (bs : Int)) jw jr bs s a m i k0).ops.get? 2 =
      some (.write (a - bs) (pattern i bs)) ∧
    (readbacktest wr (fun _ => (bs : Int)) jw jr bs s a m i k0).ops.get? 0 =
      some (.read ((a - bs) % m) bs) :=
  ⟨(readbacktest_trace wr jw jr bs s a m i k0).2,
   (readbacktest_trace wr jw jr bs s a m i k0).1⟩

/-- C9: the test pattern is the deterministic function
    byte `n` = `(sequence + n) mod 256` for `n < blocksize`, and every
    transport-error-free probe — whatever the device, its contents, the
    address or the modulus — writes exactly `pattern i bs`, so two probes
    with equal `sequence` and blocksize write identical patterns. -/
theorem C9_pattern_deterministic (bs i : Nat) :
    (∀ n, n < bs → (pattern i bs).getD n 0 = (i + n) % 256) ∧
    (∀ (wr : WriteSem) (jw jr s : Nat → Nat) (a m k0 : Nat),
      (readbacktest wr (fun _ => (bs : Int)) jw jr bs s a m i k0).ops.get? 2 =
        some (.write (a - bs) (pattern i bs))) :=
  ⟨fun n h => pattern_getD i bs n h,
   fun wr jw jr s a m k0 => (readbacktest_trace wr jw jr bs s a m i k0).2⟩

/-- Witness for C9 at sequence 7, blocksize 512, position 3. -/
theorem C9_pattern_deterministic_inst :
    (pattern 7 512).getD 3 0 = (7 + 3) % 256 :=
  (C9_pattern_deterministic 512 7).1 3 (by norm_num)

/-- C10: the shadow address `(address - blocksize) mod modulus` the probe
    reads first is strictly below the aliasing modulus; in particular for
    the first phase 1 probe (address 2^20, modulus 2^19, blocksize 512) it
    is 523776, below the 1 MiB probing floor. -/
theorem C10_shadow_below_modulus (wr : WriteSem) (jw jr : Nat → Nat)
    (bs : Nat) (s : Nat → Nat) (a m i k0 : Nat) (hm : 0 < m) :
    (readbacktest wr (fun _ => (bs : Int)) jw jr bs s a m i k0).ops.get? 0 =
      some (.read ((a - bs) % m) bs) ∧
    (a - bs) % m < m ∧
    (2 ^ 20 - 512) % 2 ^ 19 = 523776 ∧ 523776 < 2 ^ 20 :=
  ⟨(readbacktest_trace wr jw jr bs s a m i k0).1, Nat.mod_lt _ hm,
   by norm_num, by norm_num⟩

/-- Witness for C10: the first phase 1 probe on a faithful device. -/
theorem C10_shadow_below_modulus_inst :
    (readbacktest perfectWrite (fun _ => ((512 : Nat) : Int)) zf zf 512 exState
      1048576 (2 ^ 19) 0 0).ops.get? 0 =
      some (.read ((1048576 - 512) % 2 ^ 19) 512) ∧
    (1048576 - 512) % 2 ^ 19 < 2 ^ 19 ∧
    (2 ^ 20 - 512) % 2 ^ 19 = 523776 ∧ 523776 < 2 ^ 20 :=
  C10_shadow_below_modulus perfectWrite zf zf 512 exState 1048576 (2 ^ 19) 0 0
    (by norm_num)

/-- C3 fails on the code: on the aliasing device the probe detects
    corruption (512 corrupted bytes at shadow address 523776) and performs
    exactly one additional write — but all three writes of the trace target
    1048064 (= address − blocksize); the "restorative" write of disksize.c
    line 244 sends the shadow's snapshot (the 512 zero bytes read at
    523776) to 1048064, not to the shadow address 523776. -/
theorem C3_restore_misses_shadow_address :
    exProbe.ops.length = 7 ∧
    exProbe.ops.get? 6 = some (.write 1048064 (List.replicate 512 0)) ∧
    writeAddrs exProbe.ops = [1048064, 1048064, 1048064] ∧
    (1048576 - 512) % 524288 = 523776 ∧ (523776 : Nat) ≠ 1048064 := by
  refine ⟨by decide, by decide, by decide, by norm_num, by norm_num⟩

lemma readbacktest_mismatch_eq (wr : WriteSem) (jw jr : Nat → Nat) (bs : Nat)
    (s : Nat → Nat) (a m i k0 : Nat) :
    (readbacktest wr (fun _ => (bs : Int)) jw jr bs s a m i k0).mismatch =
      countDiff (fill jr (readBuf (wr s (a - bs) (pattern i bs)) (a - bs) bs))
        (fill jw (pattern i bs)) MAXBLOCKSIZE := by
  simp only [readbacktest_ok_eq]
  split_ifs <;> rfl

lemma readbacktest_corruption_eq (wr : WriteSem) (jw jr : Nat → Nat) (bs : Nat)
    (s : Nat → Nat) (a m i k0 : Nat) :
    (readbacktest wr (fun _ => (bs : Int)) jw jr bs s a m i k0).corruption =
      listDiff
        (readBuf (wr (wr s (a - bs) (pattern i bs)) (a - bs) (readBuf s (a - bs) bs))
          ((a - bs) % m) bs)
        (readBuf s ((a - bs) % m) bs) := by
  simp only [readbacktest_ok_eq]
  split_ifs <;> rfl

lemma countDiff_succ (f g : Nat → Nat) (n : Nat) :
    countDiff f g (n + 1) = countDiff f g n + if f n != g n then 1 else 0 := by
  unfold countDiff
  rw [List.range_succ, List.filter_append, List.length_append]
  congr 1
  cases h : f n != g n <;> simp [List.filter, h]

lemma countDiff_all_eq (f g : Nat → Nat) (a : Nat) (h : ∀ k, k < a → f k = g k) :
    countDiff f g a = 0 := by
  induction a with
  | zero => rfl
  | succ a ih =>
    rw [countDiff_succ, ih fun k hk => h k (by omega), h a (by omega)]
    simp

/-- If two arrays agree below `a` and differ from `a` up to `n`, the
    mismatch loop counts exactly `n - a`. -/
lemma countDiff_split (f g : Nat → Nat) (a n : Nat) (ha : a ≤ n)
    (h1 : ∀ k, k < a → f k = g k) (h2 : ∀ k, a ≤ k → k < n → f k ≠ g k) :
    countDiff f g n = n - a := by
  induction n, ha using Nat.le_induction with
  | base => rw [countDiff_all_eq f g a h1]; omega
  | succ n hn ih =>
    rw [countDiff_succ, ih fun k hk1 hk2 => h2 k hk1 (by omega)]
    have hne : f n ≠ g n := h2 n hn (by omega)
    simp only [bne_iff_ne, ne_eq, hne, not_false_eq_true, if_true]
    omega

/-- C4 fails on the code: the mismatch loop at disksize.c line 216 runs to
    `MAXBLOCKSIZE` (4096), not `blocksize`.  On a faithful device (zero
    everywhere) with blocksize 512, where every written byte reads back
    exactly and the claim therefore says the count is 0, the probe reports
    3584 mismatches: the 3584 positions 512..4095 where it compares the
    uninitialized tails of `readbackdata` (here all 1) and `writedata`
    (here all 0). -/
theorem C4_mismatch_counts_uninitialized_tail :
    (readbacktest perfectWrite (fun _ => ((512 : Nat) : Int)) zf onef 512 zf
      1048576 524288 0 0).mismatch = 3584 ∧
    (readbacktest perfectWrite (fun _ => ((512 : Nat) : Int)) zf onef 512 zf
      1048576 524288 0 0).corruption = 0 := by
  constructor
  · rw [readbacktest_mismatch_eq perfectWrite zf onef 512 zf 1048576 524288 0 0]
    have h1 : ∀ k, k < 512 →
        fill onef (readBuf (perfectWrite zf (1048576 - 512) (pattern 0 512))
          (1048576 - 512) 512) k = fill zf (pattern 0 512) k := by
      intro k hk
      unfold fill
      rw [readBuf_length, pattern_length, if_pos hk, if_pos hk,
        readBuf_getD _ _ _ k hk]
      show perfectWrite zf (1048576 - 512) (pattern 0 512) (1048576 - 512 + k)
        = (pattern 0 512).getD k 0
      unfold perfectWrite
      rw [pattern_length, if_pos (by omega), Nat.add_sub_cancel_left]
    have h2 : ∀ k, 512 ≤ k → k < MAXBLOCKSIZE →
        fill onef (readBuf (perfectWrite zf (1048576 - 512) (pattern 0 512))
          (1048576 - 512) 512) k ≠ fill zf (pattern 0 512) k := by
      intro k h5 _
      unfold fill
      rw [readBuf_length, pattern_length, if_neg (by omega), if_neg (by omega)]
      simp [onef, zf]
    rw [countDiff_split _ _ 512 MAXBLOCKSIZE (by norm_num [MAXBLOCKSIZE]) h1 h2]
    norm_num [MAXBLOCKSIZE]
  · rw [readbacktest_corruption_eq perfectWrite zf onef 512 zf 1048576 524288 0 0]
    have hres : ∀ y,
        perfectWrite (perfectWrite zf (1048576 - 512) (pattern 0 512))
          (1048576 - 512) (readBuf zf (1048576 - 512) 512) y = zf y :=
      fun y => perfectWrite_restore zf (1048576 - 512) 512 (pattern 0 512)
        (pattern_length 0 512) y
    have hbuf :
        readBuf (perfectWrite (perfectWrite zf (1048576 - 512) (pattern 0 512))
          (1048576 - 512) (readBuf zf (1048576 - 512) 512))
          ((1048576 - 512) % 524288) 512
        = readBuf zf ((1048576 - 512) % 524288) 512 := by
      unfold readBuf
      exact List.map_congr_left fun k _ => hres _
    rw [hbuf, listDiff_self]

set_option maxHeartbeats 3200000 in
/-- A probe that returns normally consumed exactly six transport
    operations, all of which transferred the full block. -/
lemma readbacktest_ok_spec (wr : WriteSem) (tr : Nat → Int) (jw jr : Nat → Nat)
    (bs : Nat) (s : Nat → Nat) (a m i k0 : Nat)
    (h : (readbacktest wr tr jw jr bs s a m i k0).ok = true) :
    (readbacktest wr tr jw jr bs s a m i k0).counter = k0 + 6 ∧
    (∀ j, k0 ≤ j → j < k0 + 6 → tr j = (bs : Int)) := by
  simp only [readbacktest] at h ⊢
  split_ifs at h ⊢ with h1 h2 h3 h4 h5 h6 h7 h8 h9
  all_goals first
    | exact Bool.noConfusion h
    | (refine ⟨rfl, ?_⟩
       push_neg at h1 h2 h3 h4 h5 h6
       intro j hj1 hj2
       have hj : j = k0 ∨ j = k0 + 1 ∨ j = k0 + 2 ∨ j = k0 + 3 ∨ j = k0 + 4 ∨
           j = k0 + 5 := by omega
       rcases hj with rfl | rfl | rfl | rfl | rfl | rfl <;> assumption)

set_option maxHeartbeats 3200000 in
/-- Every `exit` of `readbacktest` uses status −1. -/
lemma readbacktest_fail_code (wr : WriteSem) (tr : Nat → Int) (jw jr : Nat → Nat)
    (bs : Nat) (s : Nat → Nat) (a m i k0 : Nat)
    (h : (readbacktest wr tr jw jr bs s a m i k0).ok = false) :
    (readbacktest wr tr jw jr bs s a m i k0).exitCode = -1 := by
  simp only [readbacktest] at h ⊢
  split_ifs at h ⊢ <;> first | rfl | exact Bool.noConfusion h

set_option maxHeartbeats 3200000 in
/-- If the probe exits while its transport counter passes an operation
    `kk` whose transfer was short, the probe stops right there: its final
    counter is `kk + 1`. -/
lemma readbacktest_fail_counter (wr : WriteSem) (tr : Nat → Int)
    (jw jr : Nat → Nat) (bs : Nat) (s : Nat → Nat) (a m i k0 kk : Nat)
    (h : (readbacktest wr tr jw jr bs s a m i k0).ok = false)
    (hge : k0 ≤ kk)
    (hlt : kk < (readbacktest wr tr jw jr bs s a m i k0).counter)
    (hs : tr kk ≠ (bs : Int)) :
    (readbacktest wr tr jw jr bs s a m i k0).counter = kk + 1 := by
  simp only [readbacktest] at h hlt ⊢
  split_ifs at h hlt ⊢ with h1 h2 h3 h4 h5 h6 h7 h8 h9
  · change kk < k0 + 1 at hlt
    change k0 + 1 = kk + 1
    omega
  · push_neg at h1
    change kk < k0 + 2 at hlt
    change k0 + 2 = kk + 1
    have hc : kk = k0 ∨ kk = k0 + 1 := by omega
    rcases hc with rfl | rfl
    · exact absurd h1 hs
    · omega
  · push_neg at h1 h2
    change kk < k0 + 3 at hlt
    change k0 + 3 = kk + 1
    have hc : kk = k0 ∨ kk = k0 + 1 ∨ kk = k0 + 2 := by omega
    rcases hc with rfl | rfl | rfl
    · exact absurd h1 hs
    · exact absurd h2 hs
    · omega
  · push_neg at h1 h2 h3
    change kk < k0 + 4 at hlt
    change k0 + 4 = kk + 1
    have hc : kk = k0 ∨ kk = k0 + 1 ∨ kk = k0 + 2 ∨ kk = k0 + 3 := by omega
    rcases hc with rfl | rfl | rfl | rfl
    · exact absurd h1 hs
    · exact absurd h2 hs
    · exact absurd h3 hs
    · omega
  · push_neg at h1 h2 h3 h4
    change kk < k0 + 5 at hlt
    change k0 + 5 = kk + 1
    have hc : kk = k0 ∨ kk = k0 + 1 ∨ kk = k0 + 2 ∨ kk = k0 + 3 ∨
        kk = k0 + 4 := by omega
    rcases hc with rfl | rfl | rfl | rfl | rfl
    · exact absurd h1 hs
    · exact absurd h2 hs
    · exact absurd h3 hs
    · exact absurd h4 hs
    · omega
  · push_neg at h1 h2 h3 h4 h5
    change kk < k0 + 6 at hlt
    change k0 + 6 = kk + 1
    have hc : kk = k0 ∨ kk = k0 + 1 ∨ kk = k0 + 2 ∨ kk = k0 + 3 ∨
        kk = k0 + 4 ∨ kk = k0 + 5 := by omega
    rcases hc with rfl | rfl | rfl | rfl | rfl | rfl
    · exact absurd h1 hs
    · exact absurd h2 hs
    · exact absurd h3 hs
    · exact absurd h4 hs
    · exact absurd h5 hs
    · omega
  · push_neg at h1 h2 h3 h4 h5 h6
    change kk < k0 + 7 at hlt
    change k0 + 7 = kk + 1
    have hc : kk = k0 ∨ kk = k0 + 1 ∨ kk = k0 + 2 ∨ kk = k0 + 3 ∨
        kk = k0 + 4 ∨ kk = k0 + 5 ∨ kk = k0 + 6 := by omega
    rcases hc with rfl | rfl | rfl | rfl | rfl | rfl | rfl
    · exact absurd h1 hs
    · exact absurd h2 hs
    · exact absurd h3 hs
    · exact absurd h4 hs
    · exact absurd h5 hs
    · exact absurd h6 hs
    · omega
  · push_neg at h1 h2 h3 h4 h5 h6 h8
    change kk < k0 + 7 at hlt
    change k0 + 7 = kk + 1
    have hc : kk = k0 ∨ kk = k0 + 1 ∨ kk = k0 + 2 ∨ kk = k0 + 3 ∨
        kk = k0 + 4 ∨ kk = k0 + 5 ∨ kk = k0 + 6 := by omega
    rcases hc with rfl | rfl | rfl | rfl | rfl | rfl | rfl
    · exact absurd h1 hs
    · exact absurd h2 hs
    · exact absurd h3 hs
    · exact absurd h4 hs
    · exact absurd h5 hs
    · exact absurd h6 hs
    · exact absurd h8 hs
  · push_neg at h1 h2 h3 h4 h5 h6
    change kk < k0 + 6 at hlt
    change k0 + 6 = kk + 1
    have hc : kk = k0 ∨ kk = k0 + 1 ∨ kk = k0 + 2 ∨ kk = k0 + 3 ∨
        kk = k0 + 4 ∨ kk = k0 + 5 := by omega
    rcases hc with rfl | rfl | rfl | rfl | rfl | rfl
    · exact absurd h1 hs
    · exact absurd h2 hs
    · exact absurd h3 hs
    · exact absurd h4 hs
    · exact absurd h5 hs
    · exact absurd h6 hs

/-- If the run's transport counter passes an operation `kk` whose transfer
    was short, the run terminates with exit status −1 immediately after
    that operation, and no probe beyond the one containing it is started. -/
lemma runAux_short (wr : WriteSem) (tr : Nat → Int) (jw jr : Nat → Nat)
    (bs kk : Nat) (hs : tr kk ≠ (bs : Int)) :
    ∀ (probes : List (Nat × Nat × Nat)) (s : Nat → Nat) (k0 : Nat), k0 ≤ kk →
      kk < (runAux wr tr jw jr bs probes s k0).counter →
      (runAux wr tr jw jr bs probes s k0).ok = false ∧
      (runAux wr tr jw jr bs probes s k0).exitCode = -1 ∧
      (runAux wr tr jw jr bs probes s k0).counter = kk + 1 ∧
      (runAux wr tr jw jr bs probes s k0).started ≤ (kk - k0) / 6 + 1 := by
  intro probes
  induction probes with
  | nil =>
    intro s k0 hge hlt
    simp only [runAux] at hlt
    change kk < k0 at hlt
    exact absurd hlt (by omega)
  | cons p rest ih =>
    intro s k0 hge hlt
    simp only [runAux] at hlt ⊢
    by_cases hok : (readbacktest wr tr jw jr bs s p.1 p.2.1 p.2.2 k0).ok = true
    · rw [if_pos hok] at hlt ⊢
      obtain ⟨hc6, htr⟩ :=
        readbacktest_ok_spec wr tr jw jr bs s p.1 p.2.1 p.2.2 k0 hok
      dsimp only at hlt ⊢
      rw [hc6] at hlt ⊢
      have hge6 : k0 + 6 ≤ kk := by
        by_contra hcon
        push_neg at hcon
        exact hs (htr kk hge (by omega))
      have hind := ih
        ((readbacktest wr tr jw jr bs s p.1 p.2.1 p.2.2 k0).state)
        (k0 + 6) hge6 hlt
      refine ⟨hind.1, hind.2.1, hind.2.2.1, ?_⟩
      have hst := hind.2.2.2
      omega
    · rw [if_neg hok] at hlt ⊢
      have hf : (readbacktest wr tr jw jr bs s p.1 p.2.1 p.2.2 k0).ok = false := by
        revert hok
        cases (readbacktest wr tr jw jr bs s p.1 p.2.1 p.2.2 k0).ok <;> simp
      dsimp only at hlt ⊢
      refine ⟨rfl, readbacktest_fail_code wr tr jw jr bs s p.1 p.2.1 p.2.2 k0 hf,
        readbacktest_fail_counter wr tr jw jr bs s p.1 p.2.1 p.2.2 k0 kk hf hge hlt hs,
        by omega⟩

/-- C8: if any read or write of the run transfers fewer bytes than the
    requested blocksize, the whole process terminates immediately with
    exit status −1: the transport counter stops right after the short
    operation and at most `kk / 6 + 1` probes were ever started — none
    after the failing transfer (every completed probe consumes exactly 6
    transport operations). -/
theorem C8_short_transfer_fatal (wr : WriteSem) (tr : Nat → Int)
    (jw jr : Nat → Nat) (bs t : Nat) (s : Nat → Nat) (kk : Nat)
    (hs : tr kk ≠ (bs : Int))
    (hlt : kk < (runSchedule wr tr jw jr bs t s).counter) :
    (runSchedule wr tr jw jr bs t s).ok = false ∧
    (runSchedule wr tr jw jr bs t s).exitCode = -1 ∧
    (runSchedule wr tr jw jr bs t s).counter = kk + 1 ∧
    (runSchedule wr tr jw jr bs t s).started ≤ kk / 6 + 1 := by
  have h := runAux_short wr tr jw jr bs kk hs (schedule t) s 0 (Nat.zero_le _) hlt
  simpa using h

/-- Witness for C8: a device whose third transport operation (the pattern
    write of the first probe) transfers 256 of the 512 requested bytes. -/
theorem C8_short_transfer_fatal_inst :
    (runSchedule perfectWrite (fun kk => if kk = 2 then (256 : Int) else 512)
      zf zf 512 (2 ^ 21) zf).ok = false ∧
    (runSchedule perfectWrite (fun kk => if kk = 2 then (256 : Int) else 512)
      zf zf 512 (2 ^ 21) zf).exitCode = -1 ∧
    (runSchedule perfectWrite (fun kk => if kk = 2 then (256 : Int) else 512)
      zf zf 512 (2 ^ 21) zf).counter = 2 + 1 ∧
    (runSchedule perfectWrite (fun kk => if kk = 2 then (256 : Int) else 512)
      zf zf 512 (2 ^ 21) zf).started ≤ 2 / 6 + 1 :=
  C8_short_transfer_fatal perfectWrite _ zf zf 512 (2 ^ 21) zf 2
    (by decide) (by decide)
